import Mathlib

/-!
Verification development for `cfd_remesh_temp.py`, a batch script that
resamples a scalar CFD field given on a fine 2D point cloud onto a coarser
set of query points by nearest-neighbor lookup, and writes two CSV artifacts.

The script is embedded shallowly:

* float64 cell values are modelled as `Option ℚ`, with `none` playing the
  role of IEEE NaN (np.genfromtxt converts a field that does not parse as a
  float into NaN rather than raising);
* an input file is a list of rows, each row the list of its already-converted
  comma-separated fields;
* np.genfromtxt's column-count consistency check, numpy's collapse of result
  arrays with fewer than two rows (or fewer than two columns) to 1-D arrays,
  2-D column slicing `data[:,k]`, scipy's `griddata(..., method='nearest')`,
  `np.transpose`, and the command-line / filename handling of the script are
  each given an explicit executable model below;
* textual float formatting of np.savetxt is abstracted: an output artifact is
  the list of its data rows as tuples of values (artifact 1 is additionally
  preceded by the constant header `T,x,y,z` in the real program).
-/

/-- A float64 cell value: `some q` is a finite (rational-valued) float,
`none` models IEEE NaN.  np.genfromtxt with default float dtype converts any
field that does not parse as a float literal to NaN, so a raw input token is
represented the same way: `none` for a token that is not a float literal
(or is a literal NaN), `some q` for a token denoting the value `q`. -/
abbrev Scalar : Type := Option ℚ

/-- A line of an input file: the sequence of its comma-separated fields after
np.genfromtxt's per-field float conversion. -/
abbrev Row : Type := List Scalar

/-- Addition on float64 values: NaN propagates. -/
def sadd : Scalar → Scalar → Scalar
  | some a, some b => some (a + b)
  | _, _ => none

/-- Subtraction on float64 values: NaN propagates. -/
def ssub : Scalar → Scalar → Scalar
  | some a, some b => some (a - b)
  | _, _ => none

/-- Multiplication on float64 values: NaN propagates. -/
def smul : Scalar → Scalar → Scalar
  | some a, some b => some (a * b)
  | _, _ => none

/-- Strict `<` on float64 values: every comparison involving NaN is false. -/
def slt : Scalar → Scalar → Bool
  | some a, some b => decide (a < b)
  | _, _ => false

/-- The Python exceptions the script can die with (it installs no handler,
so each one aborts the run). -/
inductive ProgError where
  /-- ValueError raised by np.genfromtxt when a data row's field count
  differs from the first data row's field count. -/
  | valueError
  /-- IndexError raised by a 2-D slice `a[:,k]` when `a` is not 2-D (numpy
  collapses results with fewer than two rows or columns to 1-D) or `k` is
  out of range. -/
  | indexError
deriving DecidableEq

/-- A source data point as handed to scipy.interpolate.griddata at line 150
of the script: x- and y-coordinates (columns 1 and 2 of input A) and the
temperature value (column 0).  The z column of input A never reaches
griddata. -/
structure SPt where
  x : Scalar
  y : Scalar
  value : Scalar
deriving DecidableEq

/-- Squared 2D Euclidean distance from query `(qx, qy)` to source point `p`,
in float64 arithmetic.  griddata's nearest method (a cKDTree query) minimizes
the Euclidean distance `sqrt((qx-px)^2 + (qy-py)^2)`; comparing squared
distances selects the same point since sqrt is monotone. -/
def sdist2 (qx qy : Scalar) (p : SPt) : Scalar :=
  sadd (smul (ssub qx p.x) (ssub qx p.x)) (smul (ssub qy p.y) (ssub qy p.y))

/-- The source point nearest to the query `(qx, qy)`: a left fold keeping the
current best and replacing it only on a strictly smaller squared distance.
Among equidistant points the earliest one is kept, modelling one concrete
deterministic tie choice (the real cKDTree makes some deterministic choice
among ties; the spec leaves which one open). -/
def nnPick (qx qy : Scalar) (p0 : SPt) (ps : List SPt) : SPt :=
  ps.foldl (fun best p => if slt (sdist2 qx qy p) (sdist2 qx qy best) then p else best) p0

/-- Bundle the three parallel column arrays `x`, `y`, `temp1` of the script
into the point list griddata indexes. -/
def mkPts (xs ys vs : List Scalar) : List SPt :=
  (xs.zip (ys.zip vs)).map fun p => ⟨p.1, p.2.1, p.2.2⟩

/-- scipy.interpolate.griddata((x, y), temp1, (xi, yi), method=nearest),
line 150 of the script: for each query position the value of the nearest
source point is returned, in query order.  scipy raises on an empty source
point set (the script never reaches that case: an empty source already dies
at column slicing). -/
def griddataNearest (xs ys vs xi yi : List Scalar) : Except ProgError (List Scalar) :=
  match mkPts xs ys vs with
  | [] => .error .valueError
  | p0 :: ps => .ok ((xi.zip yi).map fun q => (nnPick q.1 q.2 p0 ps).value)

/-- np.genfromtxt(fname, delimiter=",", skip_header=skip) on a file whose
lines parse to `rows`: the first `skip` lines are discarded, every remaining
row must have the same field count as the first remaining row (otherwise
genfromtxt raises ValueError), and fields have already been converted
float-or-NaN (genfromtxt never raises for a non-numeric field).  An empty
remainder yields an empty array. -/
def genfromtxt (skip : Nat) (rows : List Row) : Except ProgError (List Row) :=
  match rows.drop skip with
  | [] => .ok []
  | r0 :: rest =>
    if rest.all fun r => r.length = r0.length then .ok (r0 :: rest)
    else .error .valueError

/-- The 2-D column slice `a[:,k]` of the script (lines 108-112 and 125-129).
numpy hands back a 1-D array when genfromtxt's result has fewer than two rows
or fewer than two columns, and a 1-D array admits no 2-D slice, so those
shapes raise IndexError, as does a column index `k` outside the (uniform)
row width. -/
def sliceCol (a : List Row) (k : Nat) : Except ProgError (List Scalar) :=
  match a with
  | r0 :: r1 :: rest =>
    if 2 ≤ r0.length ∧ k < r0.length then .ok ((r0 :: r1 :: rest).map fun r => r.getD k none)
    else .error .indexError
  | _ => .error .indexError

/-- A data row of output artifact 1: `value, x, y, z`. -/
abbrev OutRow : Type := Scalar × Scalar × Scalar × Scalar

/-- np.transpose([temp2, xi, yi, zi]) (line 167): the column arrays zipped
into one row per query point. -/
def transpose4 (a b c d : List Scalar) : List OutRow :=
  a.zip (b.zip (c.zip d))

/-- The whole data path of the script from the two parsed input files to the
two written artifacts (lines 100-179): load and slice input A (columns
x := 1, y := 2, temp1 := 0), load and slice input B (xi := 0, yi := 1,
zi := 2), resample with griddata, and assemble artifact 1 (rows
`value,x,y,z`, written after the constant header `T,x,y,z`) and artifact 2
(the value column alone).  Any uncaught exception aborts the run with no
further output. -/
def pipeline (rows1 rows2 : List Row) : Except ProgError (List OutRow × List Scalar) := do
  let data ← genfromtxt 1 rows1
  let x ← sliceCol data 1
  let y ← sliceCol data 2
  let temp1 ← sliceCol data 0
  let grid ← genfromtxt 0 rows2
  let xi ← sliceCol grid 0
  let yi ← sliceCol grid 1
  let zi ← sliceCol grid 2
  let temp2 ← griddataNearest x y temp1 xi yi
  pure (transpose4 temp2 xi yi zi, temp2)

/-- Python str.split(sep) for a single-character separator, on strings
modelled as character lists: the (always nonempty) list of chunks between
occurrences of `sep`. -/
def pySplit (sep : Char) : List Char → List (List Char)
  | [] => [[]]
  | c :: cs =>
    if c = sep then [] :: pySplit sep cs
    else
      match pySplit sep cs with
      | [] => [[c]]
      | g :: gs => (c :: g) :: gs

/-- The fixed suffix of output file 1 (line 88). -/
def coordSuffix : List Char := "_output_with_coordinates.csv".toList

/-- The fixed suffix of output file 2 (line 89). -/
def singleSuffix : List Char := "_output_single_column.csv".toList

/-- Lines 86-89 of the script: `basenameN = filenameN.split(".")`, then
`filename3 = basename1[0] + "_" + basename2[0] + suffix` and likewise
`filename4`. -/
def outputNames (f1 f2 : List Char) : List Char × List Char :=
  ((pySplit '.' f1).headD [] ++ ['_'] ++ (pySplit '.' f2).headD [] ++ coordSuffix,
   (pySplit '.' f1).headD [] ++ ['_'] ++ (pySplit '.' f2).headD [] ++ singleSuffix)

/-- The observable outcome of one run of the script. -/
inductive ProgResult where
  /-- Fewer than two arguments: the usage text is printed and `exit()` is
  called with no argument, i.e. exit status 0, before any file is opened
  (lines 76-80). -/
  | usage
  /-- An uncaught exception aborted the run; no artifact row was written. -/
  | failure (e : ProgError)
  /-- Normal completion: the two derived output names and the data rows of
  the two artifacts. -/
  | ok (names : List Char × List Char) (out1 : List OutRow) (out2 : List Scalar)
deriving DecidableEq

/-- The script top level: `args` is `sys.argv[1:]` (positional arguments
after the script name, so `len(sys.argv) < 3` is `args.length < 2`) and `fs`
maps a file name to the parsed rows of that file. -/
def runProg (args : List (List Char)) (fs : List Char → List Row) : ProgResult :=
  match args with
  | f1 :: f2 :: _ =>
    match pipeline (fs f1) (fs f2) with
    | .error e => .failure e
    | .ok (o1, o2) => .ok (outputNames f1 f2) o1 o2
  | _ => .usage

/-- A source data row with real (non-NaN) entries, as `(value, x, y)`: the
form in which the nearest-neighbor claims quantify over source points. -/
abbrev QRow : Type := ℚ × ℚ × ℚ

/-- Embed a numeric source row into the float64-valued point type. -/
def injPt (r : QRow) : SPt := ⟨some r.2.1, some r.2.2, some r.1⟩

/-- Squared 2D Euclidean distance between a numeric query and a numeric
source row. -/
def qdist2 (qx qy : ℚ) (r : QRow) : ℚ :=
  (qx - r.2.1) * (qx - r.2.1) + (qy - r.2.2) * (qy - r.2.2)

/-- One step of the nearest-point fold, on numeric rows. -/
def qstep (qx qy : ℚ) (best r : QRow) : QRow :=
  if qdist2 qx qy r < qdist2 qx qy best then r else best

/-- The nearest-point fold on numeric rows. -/
def qPick (qx qy : ℚ) (b : QRow) (l : List QRow) : QRow :=
  l.foldl (qstep qx qy) b

/-- The 2D Euclidean distance `sqrt((x_q-x_s)^2 + (y_q-y_s)^2)` named by the
specification. -/
noncomputable def specDist (qx qy : ℚ) (r : QRow) : ℝ :=
  Real.sqrt (((qx : ℝ) - (r.2.1 : ℝ)) ^ 2 + ((qy : ℝ) - (r.2.2 : ℝ)) ^ 2)

/-- Column `k` of a parsed file, as the slice `data[:,k]` returns it when it
is defined. -/
def colOf (rows : List Row) (k : Nat) : List Scalar :=
  rows.map fun r => r.getD k none

/-- Closed form of the value column the pipeline computes on well-formed
inputs: the source body rows give the point set (x from column 1, y from
column 2, value from column 0) and each query row receives the value of its
nearest point, in query order.  Statement-side helper for the order and
count claims. -/
def resampledVals (body rows2 : List Row) : List Scalar :=
  match mkPts (colOf body 1) (colOf body 2) (colOf body 0) with
  | [] => []
  | p0 :: ps => ((colOf rows2 0).zip (colOf rows2 1)).map fun q => (nnPick q.1 q.2 p0 ps).value

/-- Source input rows assembled from fixed value/x/y data `src` and a z
column `zs`: row i is `value_i, x_i, y_i, z_i`.  Used to state that the z
column of input A does not influence the run. -/
def mkSrcRows (src : List (Scalar × Scalar × Scalar)) (zs : List Scalar) : List Row :=
  (src.zip zs).map fun p => [p.1.1, p.1.2.1, p.1.2.2, p.2]

/-- The basename the spec describes: the text of a file name before its
first `.` (the whole name when it contains no dot). -/
def basenameSpec (s : List Char) : List Char := s.takeWhile fun c => c ≠ '.'

theorem bindE_ok {α β ε : Type} (a : α) (f : α → Except ε β) :
    (Except.ok a : Except ε α) >>= f = f a := rfl

theorem bindE_err {α β ε : Type} (e : ε) (f : α → Except ε β) :
    (Except.error e : Except ε α) >>= f = .error e := rfl

theorem pureE {α ε : Type} (a : α) : (pure a : Except ε α) = .ok a := rfl

theorem qPick_cons (qx qy : ℚ) (b r : QRow) (l : List QRow) :
    qPick qx qy b (r :: l) = qPick qx qy (qstep qx qy b r) l := rfl

theorem qPick_mem (qx qy : ℚ) (b : QRow) (l : List QRow) :
    qPick qx qy b l ∈ b :: l := by
  induction l generalizing b with
  | nil => simp [qPick]
  | cons r l ih =>
    rw [qPick_cons]
    rcases List.mem_cons.1 (ih (qstep qx qy b r)) with h1 | h1
    · rw [h1]
      unfold qstep
      split
      · simp
      · simp
    · simp [h1]

theorem qPick_min (qx qy : ℚ) (b : QRow) (l : List QRow) :
    ∀ t ∈ b :: l, qdist2 qx qy (qPick qx qy b l) ≤ qdist2 qx qy t := by
  induction l generalizing b with
  | nil =>
    intro t ht
    rcases List.mem_cons.1 ht with h | h
    · simp [qPick, h]
    · simp at h
  | cons r l ih =>
    intro t ht
    have hstepb : qdist2 qx qy (qstep qx qy b r) ≤ qdist2 qx qy b := by
      unfold qstep; split
      · linarith
      · exact le_refl _
    have hstepr : qdist2 qx qy (qstep qx qy b r) ≤ qdist2 qx qy r := by
      unfold qstep; split
      · exact le_refl _
      · linarith [not_lt.1 (by assumption : ¬ qdist2 qx qy r < qdist2 qx qy b)]
    have hhead := ih (qstep qx qy b r) (qstep qx qy b r) (List.mem_cons_self _ _)
    rw [qPick_cons]
    rcases List.mem_cons.1 ht with h | h
    · exact le_trans hhead (h ▸ hstepb)
    · rcases List.mem_cons.1 h with h2 | h2
      · exact le_trans hhead (h2 ▸ hstepr)
      · exact ih (qstep qx qy b r) t (List.mem_cons_of_mem _ h2)

theorem sdist2_inj (qx qy : ℚ) (r : QRow) :
    sdist2 (some qx) (some qy) (injPt r) = some (qdist2 qx qy r) := rfl

theorem step_inj (qx qy : ℚ) (b r : QRow) :
    (if slt (sdist2 (some qx) (some qy) (injPt r)) (sdist2 (some qx) (some qy) (injPt b))
      then injPt r else injPt b) = injPt (qstep qx qy b r) := by
  rw [sdist2_inj, sdist2_inj]
  unfold qstep
  simp only [slt, decide_eq_true_eq]
  split
  · rfl
  · rfl

theorem nnPick_inj (qx qy : ℚ) (b : QRow) (l : List QRow) :
    nnPick (some qx) (some qy) (injPt b) (l.map injPt) = injPt (qPick qx qy b l) := by
  induction l generalizing b with
  | nil => rfl
  | cons r l ih =>
    show nnPick (some qx) (some qy)
        (if slt (sdist2 (some qx) (some qy) (injPt r)) (sdist2 (some qx) (some qy) (injPt b))
          then injPt r else injPt b) (l.map injPt) = _
    rw [step_inj, ih, qPick_cons]

theorem mkPts_inj (l : List QRow) :
    mkPts (l.map fun r => some r.2.1) (l.map fun r => some r.2.2) (l.map fun r => some r.1)
      = l.map injPt := by
  induction l with
  | nil => rfl
  | cons r l ih =>
    show (⟨some r.2.1, some r.2.2, some r.1⟩ : SPt) :: mkPts _ _ _ = injPt r :: l.map injPt
    rw [ih]
    rfl

theorem specDist_mono (qx qy : ℚ) (s t : QRow)
    (h : qdist2 qx qy s ≤ qdist2 qx qy t) : specDist qx qy s ≤ specDist qx qy t := by
  have hs : ((qdist2 qx qy s : ℚ) : ℝ)
      = ((qx : ℝ) - (s.2.1 : ℝ)) ^ 2 + ((qy : ℝ) - (s.2.2 : ℝ)) ^ 2 := by
    push_cast [qdist2]; ring
  have ht : ((qdist2 qx qy t : ℚ) : ℝ)
      = ((qx : ℝ) - (t.2.1 : ℝ)) ^ 2 + ((qy : ℝ) - (t.2.2 : ℝ)) ^ 2 := by
    push_cast [qdist2]; ring
  unfold specDist
  rw [← hs, ← ht]
  exact Real.sqrt_le_sqrt (by exact_mod_cast h)

theorem genfromtxt_uniform (skip : Nat) (rows : List Row) (c : Nat)
    (h : ∀ r ∈ rows.drop skip, r.length = c) :
    genfromtxt skip rows = .ok (rows.drop skip) := by
  unfold genfromtxt
  cases hd : rows.drop skip with
  | nil => rfl
  | cons r0 rest =>
    rw [hd] at h
    have hall : (rest.all fun r => r.length = r0.length) = true := by
      simp only [List.all_eq_true, decide_eq_true_eq]
      intro r hr
      rw [h r (List.mem_cons_of_mem _ hr), h r0 (List.mem_cons_self _ _)]
    simp [hall]

theorem sliceCol_ok (r0 r1 : Row) (rest : List Row) (k : Nat)
    (h2 : 2 ≤ r0.length) (hk : k < r0.length) :
    sliceCol (r0 :: r1 :: rest) k = .ok (colOf (r0 :: r1 :: rest) k) := by
  show (if 2 ≤ r0.length ∧ k < r0.length then
      Except.ok ((r0 :: r1 :: rest).map fun r => r.getD k none)
    else Except.error ProgError.indexError) = _
  rw [if_pos ⟨h2, hk⟩]
  rfl

theorem mkPts_length (xs ys vs : List Scalar) :
    (mkPts xs ys vs).length = min xs.length (min ys.length vs.length) := by
  simp [mkPts]

theorem pipeline_ok_form (hdr : Row) (body rows2 : List Row)
    (hb2 : 2 ≤ body.length) (hb4 : ∀ r ∈ body, r.length = 4)
    (hq2 : 2 ≤ rows2.length) (hq3 : ∀ r ∈ rows2, r.length = 3) :
    pipeline (hdr :: body) rows2 =
      .ok (transpose4 (resampledVals body rows2) (colOf rows2 0) (colOf rows2 1) (colOf rows2 2),
           resampledVals body rows2) := by
  rcases body with _ | ⟨b0, body⟩
  · simp at hb2
  rcases body with _ | ⟨b1, body⟩
  · simp at hb2
  rcases rows2 with _ | ⟨q0, rows2⟩
  · simp at hq2
  rcases rows2 with _ | ⟨q1, rows2⟩
  · simp at hq2
  have hb0 : b0.length = 4 := hb4 b0 (by simp)
  have hq0 : q0.length = 3 := hq3 q0 (by simp)
  have hg1 : genfromtxt 1 (hdr :: b0 :: b1 :: body) = .ok (b0 :: b1 :: body) :=
    genfromtxt_uniform 1 _ 4 hb4
  have hs1 := sliceCol_ok b0 b1 body 1 (by omega) (by omega)
  have hs2 := sliceCol_ok b0 b1 body 2 (by omega) (by omega)
  have hs0 := sliceCol_ok b0 b1 body 0 (by omega) (by omega)
  have hg2 : genfromtxt 0 (q0 :: q1 :: rows2) = .ok (q0 :: q1 :: rows2) :=
    genfromtxt_uniform 0 _ 3 hq3
  have ht0 := sliceCol_ok q0 q1 rows2 0 (by omega) (by omega)
  have ht1 := sliceCol_ok q0 q1 rows2 1 (by omega) (by omega)
  have ht2 := sliceCol_ok q0 q1 rows2 2 (by omega) (by omega)
  have hgd : griddataNearest (colOf (b0 :: b1 :: body) 1) (colOf (b0 :: b1 :: body) 2)
      (colOf (b0 :: b1 :: body) 0) (colOf (q0 :: q1 :: rows2) 0) (colOf (q0 :: q1 :: rows2) 1)
      = .ok (resampledVals (b0 :: b1 :: body) (q0 :: q1 :: rows2)) := rfl
  simp only [pipeline, hg1, bindE_ok, hs1, hs2, hs0, hg2, ht0, ht1, ht2, hgd, pureE]

theorem getD_map_of_lt {α β : Type} (f : α → β) (l : List α) (i : Nat)
    (h : i < l.length) (d : β) (e : α) :
    (l.map f).getD i d = f (l.getD i e) := by
  rw [List.getD_eq_getElem _ _ (by simpa using h), List.getD_eq_getElem _ _ h, List.getElem_map]

theorem getD_zip_of_lt {α β : Type} (a : List α) (b : List β) (i : Nat)
    (ha : i < a.length) (hb : i < b.length) (d : α × β) :
    (a.zip b).getD i d = (a.getD i d.1, b.getD i d.2) := by
  have hz : i < (a.zip b).length := by
    rw [List.length_zip]; omega
  rw [List.getD_eq_getElem _ _ hz, List.getD_eq_getElem _ _ ha, List.getD_eq_getElem _ _ hb,
    List.getElem_zip]

theorem pipeline_one_source_row (hdr r : Row) (rows2 : List Row) :
    pipeline [hdr, r] rows2 = .error .indexError := rfl

theorem pipeline_empty_source (rows1 rows2 : List Row) (h : rows1.drop 1 = []) :
    pipeline rows1 rows2 = .error .indexError := by
  have hg : genfromtxt 1 rows1 = .ok [] := by
    unfold genfromtxt
    rw [h]
  simp only [pipeline, hg, bindE_ok]
  rfl

theorem pySplit_ne_nil (sep : Char) (s : List Char) : pySplit sep s ≠ [] := by
  cases s with
  | nil => simp [pySplit]
  | cons c cs =>
    unfold pySplit
    split
    · simp
    · split <;> simp

theorem pySplit_headD (sep : Char) (s : List Char) :
    (pySplit sep s).headD [] = s.takeWhile fun c => c ≠ sep := by
  induction s with
  | nil => rfl
  | cons c cs ih =>
    unfold pySplit
    by_cases hc : c = sep
    · simp [hc, List.takeWhile_cons]
    · cases h : pySplit sep cs with
      | nil => exact absurd h (pySplit_ne_nil sep cs)
      | cons g gs =>
        rw [h] at ih
        simp only [List.headD_cons] at ih
        simp [hc, h, List.takeWhile_cons, ih]

theorem mkSrcRows_len4 (src : List (Scalar × Scalar × Scalar)) (zs : List Scalar) :
    ∀ r ∈ mkSrcRows src zs, r.length = 4 := by
  intro r hr
  simp only [mkSrcRows, List.mem_map] at hr
  obtain ⟨p, _, rfl⟩ := hr
  rfl

theorem colOf_mkSrcRows (src : List (Scalar × Scalar × Scalar)) (zs : List Scalar)
    (h : src.length ≤ zs.length) (k : Nat) (hk : k < 3) :
    colOf (mkSrcRows src zs) k = src.map fun p => [p.1, p.2.1, p.2.2].getD k none := by
  induction src generalizing zs with
  | nil => rfl
  | cons p src ih =>
    cases zs with
    | nil => simp at h
    | cons z zs =>
      have htail := ih zs (by simpa using h)
      show ([p.1, p.2.1, p.2.2, z].getD k none) :: colOf (mkSrcRows src zs) k
          = ([p.1, p.2.1, p.2.2].getD k none) :: src.map fun p => [p.1, p.2.1, p.2.2].getD k none
      rw [htail]
      rcases k with _ | _ | _ | k
      · rfl
      · rfl
      · rfl
      · omega

theorem pipeline_eq_of_stages (rows1 rows1' rows2 : List Row) (d d' : List Row)
    (hgd : genfromtxt 1 rows1 = .ok d) (hgd' : genfromtxt 1 rows1' = .ok d')
    (e1 : sliceCol d 1 = sliceCol d' 1) (e2 : sliceCol d 2 = sliceCol d' 2)
    (e0 : sliceCol d 0 = sliceCol d' 0) :
    pipeline rows1 rows2 = pipeline rows1' rows2 := by
  simp only [pipeline, hgd, hgd', bindE_ok, e1, e2, e0]

/-- C3 (amended).  A source file with exactly one data row does not realize
the single-source degeneracy: np.genfromtxt returns a 1-D array for it, the
column slice `data[:,1]` raises IndexError, and the run aborts with no
output.  The degeneracy does hold of the resampling step itself: griddata
over a single source point assigns that point's value to every query point
regardless of distance. -/
theorem claim3_single_source :
    (∀ hdr r : Row, ∀ rows2 : List Row, pipeline [hdr, r] rows2 = .error .indexError) ∧
    (∀ x0 y0 v0 : Scalar, ∀ xi yi : List Scalar,
      griddataNearest [x0] [y0] [v0] xi yi = .ok ((xi.zip yi).map fun _ => v0)) := by
  refine ⟨fun hdr r rows2 => pipeline_one_source_row hdr r rows2, fun x0 y0 v0 xi yi => ?_⟩
  show Except.ok ((xi.zip yi).map fun q => (nnPick q.1 q.2 ⟨x0, y0, v0⟩ []).value) = _
  rfl

/-- C3, counterexample to the claim as stated: a valid source file with a
header and exactly one data row of value 5 at (0,0), with two query points,
makes the program abort with IndexError instead of producing rows valued 5:
no query resolves to the single source's value because no output exists. -/
theorem claim3_counterexample :
    pipeline [[none, none, none, none], [some 5, some 0, some 0, some 0]]
      [[some 0, some 0, some 0], [some 1, some 1, some 1]] = .error .indexError := rfl

/-- C4: the end-to-end example.  Source rows (after the skipped header)
`10,0,0,0` and `20,10,0,0`, query rows `1,0,0` and `9,0,0`: query (1,0) is
nearest to the source at (0,0) and gets 10, query (9,0) is nearest to the
source at (10,0) and gets 20; artifact 1 rows are (10,1,0,0) then (20,9,0,0)
and artifact 2 is 10 then 20 (textual float formatting abstracted to the
values themselves). -/
theorem claim4_end_to_end :
    pipeline [[none, none, none, none], [some 10, some 0, some 0, some 0],
              [some 20, some 10, some 0, some 0]]
             [[some 1, some 0, some 0], [some 9, some 0, some 0]]
      = .ok ([(some 10, some 1, (some 0, some 0)), (some 20, some 9, (some 0, some 0))],
             [some 10, some 20]) := by
  rw [pipeline_ok_form [none, none, none, none]
      [[some 10, some 0, some 0, some 0], [some 20, some 10, some 0, some 0]]
      [[some 1, some 0, some 0], [some 9, some 0, some 0]]
      (by decide) (by decide) (by decide) (by decide)]
  simp only [resampledVals, colOf, mkPts, transpose4, nnPick, List.map_cons, List.map_nil,
    List.zip_cons_cons, List.zip_nil_right, List.zip_nil_left, List.foldl_cons, List.foldl_nil,
    List.getD_cons_zero, List.getD_cons_succ, sdist2, sadd, ssub, smul, slt, decide_eq_true_eq]
  norm_num

/-- C6 (amended): an empty query file never yields the header-only outputs
the claim describes; whatever the source file contains, the run aborts with
an uncaught exception before any artifact is written (for a well-formed
source, an IndexError when slicing the collapsed empty query array). -/
theorem claim6_empty_query (rows1 : List Row) :
    ∃ e, pipeline rows1 [] = Except.error e := by
  cases h1 : genfromtxt 1 rows1 with
  | error e => exact ⟨e, by simp only [pipeline, h1, bindE_err]⟩
  | ok data =>
    cases h2 : sliceCol data 1 with
    | error e => exact ⟨e, by simp only [pipeline, h1, h2, bindE_ok, bindE_err]⟩
    | ok x =>
      cases h3 : sliceCol data 2 with
      | error e => exact ⟨e, by simp only [pipeline, h1, h2, h3, bindE_ok, bindE_err]⟩
      | ok y =>
        cases h4 : sliceCol data 0 with
        | error e => exact ⟨e, by simp only [pipeline, h1, h2, h3, h4, bindE_ok, bindE_err]⟩
        | ok t =>
          refine ⟨.indexError, ?_⟩
          simp only [pipeline, h1, h2, h3, h4, bindE_ok]
          rfl

/-- C6, counterexample to the claim as stated: with a perfectly valid
non-empty source (header plus two data rows) and a query file with zero
rows, the program raises IndexError instead of succeeding with header-only
artifacts. -/
theorem claim6_counterexample :
    pipeline [[none, none, none, none], [some 1, some 0, some 0, some 0],
              [some 2, some 1, some 1, some 0]] []
      = .error .indexError := rfl

/-- C7: a source input that yields zero usable data rows (nothing after the
skipped header line) aborts the run before any resampling: the empty parsed
array cannot be column-sliced, which is the failure the spec labels
`EmptyInputError`.  The error is raised while loading input A, so griddata
is never reached. -/
theorem claim7_empty_source (rows1 rows2 : List Row) (h : rows1.drop 1 = []) :
    pipeline rows1 rows2 = .error .indexError :=
  pipeline_empty_source rows1 rows2 h

theorem claim7_witness :
    pipeline [[none, none, none, none]]
      [[some 0, some 0, some 0], [some 1, some 0, some 0]] = .error .indexError :=
  claim7_empty_source [[none, none, none, none]]
    [[some 0, some 0, some 0], [some 1, some 0, some 0]] rfl

/-- C8: the two output paths are obtained deterministically from the two
input file names by taking each name's text before its first `.`, joining
the two basenames with `_`, and appending the fixed suffixes
`_output_with_coordinates.csv` and `_output_single_column.csv`. -/
theorem claim8_output_names (f1 f2 : List Char) :
    outputNames f1 f2
      = (basenameSpec f1 ++ ['_'] ++ basenameSpec f2 ++ coordSuffix,
         basenameSpec f1 ++ ['_'] ++ basenameSpec f2 ++ singleSuffix) := by
  unfold outputNames basenameSpec
  rw [pySplit_headD, pySplit_headD]

/-- C9: with fewer than two positional arguments the program prints usage
and exits with status 0 (bare `exit()`), reading no input file: the result
is `.usage` whatever the file system contains. -/
theorem claim9_usage (args : List (List Char)) (fs : List Char → List Row)
    (h : args.length < 2) : runProg args fs = .usage := by
  rcases args with _ | ⟨f1, _ | ⟨f2, rest⟩⟩
  · rfl
  · rfl
  · simp only [List.length_cons] at h
    omega

theorem claim9_witness :
    runProg ["input1.csv".toList] (fun _ => []) = .usage :=
  claim9_usage ["input1.csv".toList] (fun _ => []) (by decide)

/-- C1: the resampling step assigns every query point the value of a source
point at minimal 2D Euclidean distance `sqrt((x_q-x_s)^2+(y_q-y_s)^2)`, any
tie going to one of the tied points.  Stated for an arbitrary nonempty
source list `s0 :: rest` of numeric rows `(value, x, y)` and an arbitrary
query list, the coordinates griddata actually receives. -/
theorem claim1_nearest_neighbor (s0 : QRow) (rest : List QRow) (qs : List (ℚ × ℚ)) :
    ∃ out, griddataNearest ((s0 :: rest).map fun r => some r.2.1)
        ((s0 :: rest).map fun r => some r.2.2) ((s0 :: rest).map fun r => some r.1)
        (qs.map fun q => some q.1) (qs.map fun q => some q.2) = .ok out ∧
      out.length = qs.length ∧
      ∀ i : Fin qs.length, ∃ s ∈ s0 :: rest,
        out.getD i none = some s.1 ∧
        ∀ t ∈ s0 :: rest,
          specDist (qs.getD i (0, 0)).1 (qs.getD i (0, 0)).2 s
            ≤ specDist (qs.getD i (0, 0)).1 (qs.getD i (0, 0)).2 t := by
  have hmk : mkPts ((s0 :: rest).map fun r => some r.2.1)
      ((s0 :: rest).map fun r => some r.2.2) ((s0 :: rest).map fun r => some r.1)
      = injPt s0 :: rest.map injPt := by
    rw [mkPts_inj (s0 :: rest), List.map_cons]
  have hgd : griddataNearest ((s0 :: rest).map fun r => some r.2.1)
      ((s0 :: rest).map fun r => some r.2.2) ((s0 :: rest).map fun r => some r.1)
      (qs.map fun q => some q.1) (qs.map fun q => some q.2)
      = .ok (((qs.map fun q => some q.1).zip (qs.map fun q => some q.2)).map
          fun q => (nnPick q.1 q.2 (injPt s0) (rest.map injPt)).value) := by
    unfold griddataNearest
    rw [hmk]
  rw [List.zip_map', List.map_map] at hgd
  refine ⟨_, hgd, by simp, ?_⟩
  intro i
  refine ⟨qPick (qs.getD i (0, 0)).1 (qs.getD i (0, 0)).2 s0 rest, qPick_mem _ _ _ _, ?_, ?_⟩
  · rw [getD_map_of_lt _ qs i i.isLt none (0, 0)]
    show (nnPick (some (qs.getD i (0, 0)).1) (some (qs.getD i (0, 0)).2)
        (injPt s0) (rest.map injPt)).value = _
    rw [nnPick_inj]
    rfl
  · intro t ht
    exact specDist_mono _ _ _ _ (qPick_min _ _ _ _ t ht)

theorem claim1_witness :
    ∃ out, griddataNearest
        (([((10:ℚ), (0:ℚ), (0:ℚ)), ((20:ℚ), (10:ℚ), (0:ℚ))]).map fun r => some r.2.1)
        (([((10:ℚ), (0:ℚ), (0:ℚ)), ((20:ℚ), (10:ℚ), (0:ℚ))]).map fun r => some r.2.2)
        (([((10:ℚ), (0:ℚ), (0:ℚ)), ((20:ℚ), (10:ℚ), (0:ℚ))]).map fun r => some r.1)
        (([((1:ℚ), (0:ℚ)), ((9:ℚ), (0:ℚ))]).map fun q => some q.1)
        (([((1:ℚ), (0:ℚ)), ((9:ℚ), (0:ℚ))]).map fun q => some q.2) = .ok out ∧
      out.length = ([((1:ℚ), (0:ℚ)), ((9:ℚ), (0:ℚ))]).length ∧
      ∀ i : Fin ([((1:ℚ), (0:ℚ)), ((9:ℚ), (0:ℚ))]).length,
        ∃ s ∈ [((10:ℚ), (0:ℚ), (0:ℚ)), ((20:ℚ), (10:ℚ), (0:ℚ))],
        out.getD i none = some s.1 ∧
        ∀ t ∈ [((10:ℚ), (0:ℚ), (0:ℚ)), ((20:ℚ), (10:ℚ), (0:ℚ))],
          specDist (([((1:ℚ), (0:ℚ)), ((9:ℚ), (0:ℚ))]).getD i (0, 0)).1
              (([((1:ℚ), (0:ℚ)), ((9:ℚ), (0:ℚ))]).getD i (0, 0)).2 s
            ≤ specDist (([((1:ℚ), (0:ℚ)), ((9:ℚ), (0:ℚ))]).getD i (0, 0)).1
              (([((1:ℚ), (0:ℚ)), ((9:ℚ), (0:ℚ))]).getD i (0, 0)).2 t :=
  claim1_nearest_neighbor ((10:ℚ), (0:ℚ), (0:ℚ)) [((20:ℚ), (10:ℚ), (0:ℚ))]
    [((1:ℚ), (0:ℚ)), ((9:ℚ), (0:ℚ))]

theorem resampledVals_length (body rows2 : List Row) (hb : 1 ≤ body.length) :
    (resampledVals body rows2).length = rows2.length := by
  unfold resampledVals
  cases hm : mkPts (colOf body 1) (colOf body 2) (colOf body 0) with
  | nil =>
    have hlen := mkPts_length (colOf body 1) (colOf body 2) (colOf body 0)
    rw [hm] at hlen
    simp [colOf] at hlen
    omega
  | cons p0 ps =>
    simp [colOf, List.length_zip]

/-- C2 (amended): for a source file with a header row and at least two
4-field data rows and a query file with at least two 3-field rows, both
artifacts have exactly one data row per query row, artifact 2 is the
resampled value column, and data row i of artifact 1 is artifact 2's row i
value followed by query row i's x, y and z fields.  (With 0 or 1 query rows,
or 0 or 1 source data rows, numpy instead collapses the parsed array to 1-D
and the run aborts with IndexError; see the counterexample.) -/
theorem claim2_order_preserved (hdr : Row) (body rows2 : List Row)
    (hb2 : 2 ≤ body.length) (hb4 : ∀ r ∈ body, r.length = 4)
    (hq2 : 2 ≤ rows2.length) (hq3 : ∀ r ∈ rows2, r.length = 3) :
    ∃ o1 o2, pipeline (hdr :: body) rows2 = .ok (o1, o2) ∧
      o1.length = rows2.length ∧ o2.length = rows2.length ∧
      o2 = resampledVals body rows2 ∧
      ∀ i : Fin rows2.length,
        o1.getD i (none, none, none, none) =
          (o2.getD i none, (rows2.getD i []).getD 0 none, (rows2.getD i []).getD 1 none,
            (rows2.getD i []).getD 2 none) := by
  have hform := pipeline_ok_form hdr body rows2 hb2 hb4 hq2 hq3
  have hA : (resampledVals body rows2).length = rows2.length :=
    resampledVals_length body rows2 (by omega)
  have hB : (colOf rows2 0).length = rows2.length := by simp [colOf]
  have hC : (colOf rows2 1).length = rows2.length := by simp [colOf]
  have hD : (colOf rows2 2).length = rows2.length := by simp [colOf]
  refine ⟨_, _, hform, ?_, hA, rfl, ?_⟩
  · simp only [transpose4, List.length_zip, hA, hB, hC, hD, Nat.min_self]
  · intro i
    have hiA : (i : Nat) < (resampledVals body rows2).length := by rw [hA]; exact i.isLt
    have hiB : (i : Nat) < (colOf rows2 0).length := by rw [hB]; exact i.isLt
    have hiC : (i : Nat) < (colOf rows2 1).length := by rw [hC]; exact i.isLt
    have hiD : (i : Nat) < (colOf rows2 2).length := by rw [hD]; exact i.isLt
    have hiCD : (i : Nat) < ((colOf rows2 1).zip (colOf rows2 2)).length := by
      rw [List.length_zip, hC, hD, Nat.min_self]; exact i.isLt
    have hiBCD : (i : Nat) < ((colOf rows2 0).zip ((colOf rows2 1).zip (colOf rows2 2))).length := by
      rw [List.length_zip, List.length_zip, hB, hC, hD, Nat.min_self, Nat.min_self]
      exact i.isLt
    show (transpose4 (resampledVals body rows2) (colOf rows2 0) (colOf rows2 1)
        (colOf rows2 2)).getD i (none, none, none, none) = _
    rw [transpose4]
    simp only [getD_zip_of_lt (resampledVals body rows2) _ i hiA hiBCD,
      getD_zip_of_lt (colOf rows2 0) _ i hiB hiCD,
      getD_zip_of_lt (colOf rows2 1) _ i hiC hiD]
    have hgB : (colOf rows2 0).getD i none = (rows2.getD i []).getD 0 none :=
      getD_map_of_lt _ rows2 i i.isLt none []
    have hgC : (colOf rows2 1).getD i none = (rows2.getD i []).getD 1 none :=
      getD_map_of_lt _ rows2 i i.isLt none []
    have hgD : (colOf rows2 2).getD i none = (rows2.getD i []).getD 2 none :=
      getD_map_of_lt _ rows2 i i.isLt none []
    rw [hgB, hgC, hgD]

/-- C2, witness at a concrete input: two source data rows, two query rows. -/
theorem claim2_witness :
    ∃ o1 o2, pipeline [[none, none, none, none], [some 3, some 0, some 0, some 0],
        [some 4, some 2, some 0, some 0]]
        [[some 0, some 0, some 5], [some 2, some 0, some 6]] = .ok (o1, o2) ∧
      o1.length = ([[(some 0 : Scalar), some 0, some 5], [some 2, some 0, some 6]]).length ∧
      o2.length = ([[(some 0 : Scalar), some 0, some 5], [some 2, some 0, some 6]]).length ∧
      o2 = resampledVals [[some 3, some 0, some 0, some 0], [some 4, some 2, some 0, some 0]]
          [[some 0, some 0, some 5], [some 2, some 0, some 6]] ∧
      ∀ i : Fin ([[(some 0 : Scalar), some 0, some 5], [some 2, some 0, some 6]]).length,
        o1.getD i (none, none, none, none) =
          (o2.getD i none,
            (([[(some 0 : Scalar), some 0, some 5], [some 2, some 0, some 6]]).getD i []).getD 0 none,
            (([[(some 0 : Scalar), some 0, some 5], [some 2, some 0, some 6]]).getD i []).getD 1 none,
            (([[(some 0 : Scalar), some 0, some 5], [some 2, some 0, some 6]]).getD i []).getD 2 none) :=
  claim2_order_preserved [none, none, none, none]
    [[some 3, some 0, some 0, some 0], [some 4, some 2, some 0, some 0]]
    [[some 0, some 0, some 5], [some 2, some 0, some 6]]
    (by decide) (by decide) (by decide) (by decide)

/-- C2, counterexample to the claim as stated: a valid non-empty source
(header plus two data rows) and a query file with exactly one row do not
produce one-row artifacts; numpy collapses the one-row query array to 1-D,
`grid[:,0]` raises IndexError and the run aborts with no output. -/
theorem claim2_counterexample :
    pipeline [[none, none, none, none], [some 1, some 0, some 0, some 0],
              [some 2, some 1, some 1, some 0]]
             [[some 0, some 0, some 0]]
      = .error .indexError := rfl

/-- C5 (amended): np.genfromtxt rejects only column-count inconsistencies.
With the data rows `r0 :: rest` left after skipping the header, the load
fails (with the ValueError the spec calls `MalformedRowError`) exactly when
some row's field count differs from the first data row's, and succeeds with
all rows kept exactly when every field count agrees — independently of the
fields' contents, so a non-numeric field in a correctly sized row is
silently read as NaN rather than rejected (see the counterexample). -/
theorem claim5_malformed_rows (skip : Nat) (rows : List Row) (r0 : Row) (rest : List Row)
    (h : rows.drop skip = r0 :: rest) :
    (genfromtxt skip rows = .error .valueError ↔ ∃ r ∈ rest, r.length ≠ r0.length) ∧
    (genfromtxt skip rows = .ok (r0 :: rest) ↔ ∀ r ∈ rest, r.length = r0.length) := by
  have hg : genfromtxt skip rows
      = if rest.all fun r => r.length = r0.length then Except.ok (r0 :: rest)
        else Except.error ProgError.valueError := by
    unfold genfromtxt
    rw [h]
  by_cases hall : ∀ r ∈ rest, r.length = r0.length
  · have hb : (rest.all fun r => r.length = r0.length) = true := by
      simp only [List.all_eq_true, decide_eq_true_eq]
      exact hall
    rw [hg, hb, if_pos rfl]
    constructor
    · constructor
      · intro hcontra
        exact absurd hcontra (by simp)
      · rintro ⟨r, hr, hne⟩
        exact absurd (hall r hr) hne
    · exact ⟨fun _ => hall, fun _ => rfl⟩
  · have hb : (rest.all fun r => r.length = r0.length) = false := by
      simp only [List.all_eq_false]
      push_neg at hall
      obtain ⟨r, hr, hne⟩ := hall
      exact ⟨r, hr, by simpa using hne⟩
    rw [hg, hb]
    simp only [Bool.false_eq_true, if_false]
    constructor
    · constructor
      · intro _
        push_neg at hall
        obtain ⟨r, hr, hne⟩ := hall
        exact ⟨r, hr, hne⟩
      · intro _
        trivial
    · constructor
      · intro hcontra
        exact absurd hcontra (by simp)
      · intro hforall
        exact absurd hforall hall

theorem claim5_witness :
    (genfromtxt 1 [[], [some 1, some 2], [some 3]] = .error .valueError
      ↔ ∃ r ∈ [[(some 3 : Scalar)]], r.length ≠ ([(some 1 : Scalar), some 2]).length) ∧
    (genfromtxt 1 [[], [some 1, some 2], [some 3]] = .ok [[some 1, some 2], [some 3]]
      ↔ ∀ r ∈ [[(some 3 : Scalar)]], r.length = ([(some 1 : Scalar), some 2]).length) :=
  claim5_malformed_rows 1 [[], [some 1, some 2], [some 3]] [some 1, some 2] [[some 3]] rfl

/-- C5, counterexample to the claim as stated: a source file whose first
data row has the non-numeric field in the value column (read as NaN) is
accepted without any error — the run completes and writes both artifacts —
instead of failing with a malformed-row error. -/
theorem claim5_counterexample :
    pipeline [[none, none, none, none], [none, some 5, some 0, some 0],
              [some 7, some 0, some 0, some 0]]
             [[some 0, some 0, some 0], [some 1, some 0, some 0]]
      = .ok ([(some 7, some 0, (some 0, some 0)), (some 7, some 1, (some 0, some 0))],
             [some 7, some 7]) := by
  rw [pipeline_ok_form [none, none, none, none]
      [[none, some 5, some 0, some 0], [some 7, some 0, some 0, some 0]]
      [[some 0, some 0, some 0], [some 1, some 0, some 0]]
      (by decide) (by decide) (by decide) (by decide)]
  simp only [resampledVals, colOf, mkPts, transpose4, nnPick, List.map_cons, List.map_nil,
    List.zip_cons_cons, List.zip_nil_right, List.zip_nil_left, List.foldl_cons, List.foldl_nil,
    List.getD_cons_zero, List.getD_cons_succ, sdist2, sadd, ssub, smul, slt, decide_eq_true_eq]
  norm_num

/-- C10: the z column of the source file never influences the run.  Two
source inputs sharing the same header count, values, x and y columns and
differing only in their z column (of the same length) drive the pipeline to
the same outcome — identical artifacts on success and the identical error
otherwise — for every query file.  The script reads only source columns 0,
1 and 2 (lines 108-112) and hands griddata no z. -/
theorem claim10_z_column (hdr : Row) (src : List (Scalar × Scalar × Scalar))
    (zs zs' : List Scalar) (rows2 : List Row)
    (h : zs.length = src.length) (h' : zs'.length = src.length) :
    pipeline (hdr :: mkSrcRows src zs) rows2 = pipeline (hdr :: mkSrcRows src zs') rows2 := by
  rcases src with _ | ⟨a, src⟩
  · rfl
  rcases src with _ | ⟨b, src⟩
  · rcases zs with _ | ⟨z1, zt⟩
    · simp at h
    rcases zt with _ | ⟨z2, zt⟩
    · rcases zs' with _ | ⟨z1', zt'⟩
      · simp at h'
      rcases zt' with _ | ⟨z2', zt'⟩
      · exact (pipeline_one_source_row hdr _ rows2).trans
          (pipeline_one_source_row hdr _ rows2).symm
      · simp at h'
    · simp at h
  · rcases zs with _ | ⟨z1, zt⟩
    · simp at h
    rcases zt with _ | ⟨z2, zt⟩
    · simp at h
    rcases zs' with _ | ⟨z1', zt'⟩
    · simp at h'
    rcases zt' with _ | ⟨z2', zt'⟩
    · simp at h'
    simp only [List.length_cons] at h h'
    have hg : genfromtxt 1 (hdr :: mkSrcRows (a :: b :: src) (z1 :: z2 :: zt))
        = .ok (mkSrcRows (a :: b :: src) (z1 :: z2 :: zt)) :=
      genfromtxt_uniform 1 _ 4 (mkSrcRows_len4 _ _)
    have hg' : genfromtxt 1 (hdr :: mkSrcRows (a :: b :: src) (z1' :: z2' :: zt'))
        = .ok (mkSrcRows (a :: b :: src) (z1' :: z2' :: zt')) :=
      genfromtxt_uniform 1 _ 4 (mkSrcRows_len4 _ _)
    have hs : ∀ k, k < 3 → sliceCol (mkSrcRows (a :: b :: src) (z1 :: z2 :: zt)) k
        = .ok ((a :: b :: src).map fun p => [p.1, p.2.1, p.2.2].getD k none) := by
      intro k hk
      have e : sliceCol (mkSrcRows (a :: b :: src) (z1 :: z2 :: zt)) k
          = .ok (colOf (mkSrcRows (a :: b :: src) (z1 :: z2 :: zt)) k) :=
        sliceCol_ok [a.1, a.2.1, a.2.2, z1] [b.1, b.2.1, b.2.2, z2]
          (mkSrcRows src zt) k (by simp) (by simp; omega)
      rw [e, colOf_mkSrcRows _ _ (by simp only [List.length_cons]; omega) k hk]
    have hs' : ∀ k, k < 3 → sliceCol (mkSrcRows (a :: b :: src) (z1' :: z2' :: zt')) k
        = .ok ((a :: b :: src).map fun p => [p.1, p.2.1, p.2.2].getD k none) := by
      intro k hk
      have e : sliceCol (mkSrcRows (a :: b :: src) (z1' :: z2' :: zt')) k
          = .ok (colOf (mkSrcRows (a :: b :: src) (z1' :: z2' :: zt')) k) :=
        sliceCol_ok [a.1, a.2.1, a.2.2, z1'] [b.1, b.2.1, b.2.2, z2']
          (mkSrcRows src zt') k (by simp) (by simp; omega)
      rw [e, colOf_mkSrcRows _ _ (by simp only [List.length_cons]; omega) k hk]
    apply pipeline_eq_of_stages _ _ rows2 _ _ hg hg'
    · rw [hs 1 (by omega), hs' 1 (by omega)]
    · rw [hs 2 (by omega), hs' 2 (by omega)]
    · rw [hs 0 (by omega), hs' 0 (by omega)]

theorem claim10_witness :
    pipeline [[none, none, none, none], [some 10, some 0, some 0, some 1],
              [some 20, some 10, some 0, some 2]]
             [[some 1, some 0, some 0], [some 9, some 0, some 0]]
      = pipeline [[none, none, none, none], [some 10, some 0, some 0, none],
                  [some 20, some 10, some 0, some 9]]
             [[some 1, some 0, some 0], [some 9, some 0, some 0]] :=
  claim10_z_column [none, none, none, none]
    [(some 10, some 0, some 0), (some 20, some 10, some 0)]
    [some 1, some 2] [none, some 9]
    [[some 1, some 0, some 0], [some 9, some 0, some 0]] rfl rfl
